import Mathlib

/-!
Verification of the resilience and email-automation core of
`solstice035/project-dashboard`.

The Python sources are embedded shallowly:

* `src/resilience.py` — `CircuitBreaker` becomes a record over `Nat`/`Int`
  fields; every method that reads the wall clock (`datetime.now()`) takes the
  current time as an explicit `Int` parameter (seconds on an arbitrary
  origin).  Methods that mutate the breaker return the updated record.
* the `retry` / `retry_with_circuit_breaker` decorators become recursive
  functions over an explicit per-attempt outcome oracle; sleeping and the
  float-valued jitter delays are irrelevant to the verified properties and
  are recorded only as events in an action trace.
* `src/email_automation/school/letter_parser.py` — dates become a concrete
  `PyDate` record with the proleptic-Gregorian validity rules of Python's
  `datetime.date`; the regular expressions of `UK_DATE_PATTERNS` become
  hand-rolled scanners with `re.finditer` semantics.
* `src/email_automation/scheduling/jobs.py` and `scheduler.py` — job
  closures and callbacks become `Except`-valued data, a raised exception
  being the `.error` case.
-/

/-! ## Circuit breaker (src/resilience.py) -/

/-- `CircuitState` from src/resilience.py (`closed` / `open` / `half_open`;
`open` is spelled `open_` because it is a Lean keyword). -/
inductive CircuitState where
  | closed
  | open_
  | half_open
deriving DecidableEq, Repr

/-- The `CircuitBreaker` dataclass.  Wall-clock datetimes are modelled as
`Int` timestamps; `reset_timeout_seconds` stays an integer as in the source. -/
structure CircuitBreaker where
  name : String
  failure_threshold : Nat := 5
  reset_timeout_seconds : Int := 60
  half_open_max_calls : Nat := 1
  _state : CircuitState := CircuitState.closed
  _failure_count : Nat := 0
  _last_failure_time : Option Int := none
  _half_open_calls : Nat := 0
deriving DecidableEq, Repr

/-- The dataclass constructor: only the four `init` fields are settable, the
internal state always starts closed/zeroed. -/
def CircuitBreaker.init (name : String) (failure_threshold : Nat)
    (reset_timeout_seconds : Int) (half_open_max_calls : Nat) : CircuitBreaker :=
  ⟨name, failure_threshold, reset_timeout_seconds, half_open_max_calls,
    CircuitState.closed, 0, none, 0⟩

/-- `CircuitBreaker._should_attempt_reset`, with `datetime.now()` passed in as
`now`. -/
def CircuitBreaker._should_attempt_reset (cb : CircuitBreaker) (now : Int) : Bool :=
  match cb._last_failure_time with
  | none => true
  | some t => now ≥ t + cb.reset_timeout_seconds

/-- The `state` property.  It is side-effecting in the source (lazy
OPEN→HALF_OPEN transition), so it returns the observed state together with
the updated breaker. -/
def CircuitBreaker.state (cb : CircuitBreaker) (now : Int) :
    CircuitState × CircuitBreaker :=
  if cb._state = CircuitState.open_ ∧ cb._should_attempt_reset now = true then
    (CircuitState.half_open,
      { cb with _state := CircuitState.half_open, _half_open_calls := 0 })
  else
    (cb._state, cb)

/-- `CircuitBreaker.allow_request`. -/
def CircuitBreaker.allow_request (cb : CircuitBreaker) (now : Int) :
    Bool × CircuitBreaker :=
  let sc := cb.state now
  match sc.1 with
  | CircuitState.closed => (true, sc.2)
  | CircuitState.half_open =>
      if sc.2._half_open_calls < sc.2.half_open_max_calls then
        (true, { sc.2 with _half_open_calls := sc.2._half_open_calls + 1 })
      else
        (false, sc.2)
  | CircuitState.open_ => (false, sc.2)

/-- `CircuitBreaker.record_success`. -/
def CircuitBreaker.record_success (cb : CircuitBreaker) : CircuitBreaker :=
  match cb._state with
  | CircuitState.half_open =>
      { cb with _state := CircuitState.closed, _failure_count := 0,
                _last_failure_time := none }
  | CircuitState.closed => { cb with _failure_count := 0 }
  | CircuitState.open_ => cb

/-- `CircuitBreaker.record_failure`, with `datetime.now()` passed in as
`now`. -/
def CircuitBreaker.record_failure (cb : CircuitBreaker) (now : Int) : CircuitBreaker :=
  let cb1 := { cb with _failure_count := cb._failure_count + 1,
                       _last_failure_time := some now }
  match cb1._state with
  | CircuitState.half_open => { cb1 with _state := CircuitState.open_ }
  | CircuitState.closed =>
      if cb1._failure_count ≥ cb1.failure_threshold then
        { cb1 with _state := CircuitState.open_ }
      else cb1
  | CircuitState.open_ => cb1

/-- `CircuitBreaker.get_reset_time` (a `datetime` is always truthy, so the
Python `and self._last_failure_time` is a `some`-match). -/
def CircuitBreaker.get_reset_time (cb : CircuitBreaker) : Option Int :=
  match cb._state, cb._last_failure_time with
  | CircuitState.open_, some t => some (t + cb.reset_timeout_seconds)
  | _, _ => none

/-- `CircuitBreaker.reset`. -/
def CircuitBreaker.reset (cb : CircuitBreaker) : CircuitBreaker :=
  { cb with _state := CircuitState.closed, _failure_count := 0,
            _last_failure_time := none, _half_open_calls := 0 }

/-- A sequence of consecutive `record_failure` calls at the given times. -/
def CircuitBreaker.record_failures (cb : CircuitBreaker) (ts : List Int) :
    CircuitBreaker :=
  ts.foldl CircuitBreaker.record_failure cb

/-! ### Basic lemmas about `record_failure` sequences -/

theorem record_failure_count (cb : CircuitBreaker) (now : Int) :
    (cb.record_failure now)._failure_count = cb._failure_count + 1 := by
  unfold CircuitBreaker.record_failure
  cases cb._state <;> simp
  split <;> rfl

theorem record_failure_last (cb : CircuitBreaker) (now : Int) :
    (cb.record_failure now)._last_failure_time = some now := by
  unfold CircuitBreaker.record_failure
  cases cb._state <;> simp
  split <;> rfl

theorem record_failure_config (cb : CircuitBreaker) (now : Int) :
    (cb.record_failure now).failure_threshold = cb.failure_threshold ∧
    (cb.record_failure now).reset_timeout_seconds = cb.reset_timeout_seconds ∧
    (cb.record_failure now).half_open_max_calls = cb.half_open_max_calls ∧
    (cb.record_failure now).name = cb.name := by
  unfold CircuitBreaker.record_failure
  cases cb._state <;> simp
  split <;> simp

theorem record_failure_from_open (cb : CircuitBreaker) (now : Int)
    (h : cb._state = CircuitState.open_) :
    (cb.record_failure now)._state = CircuitState.open_ := by
  simp [CircuitBreaker.record_failure, h]

theorem record_failure_from_closed (cb : CircuitBreaker) (now : Int)
    (h : cb._state = CircuitState.closed) :
    (cb.record_failure now)._state =
      (if cb._failure_count + 1 ≥ cb.failure_threshold then CircuitState.open_
       else CircuitState.closed) := by
  simp only [CircuitBreaker.record_failure, h]
  split <;> simp_all

theorem record_failures_count (ts : List Int) (cb : CircuitBreaker) :
    (cb.record_failures ts)._failure_count = cb._failure_count + ts.length := by
  induction ts generalizing cb with
  | nil => rfl
  | cons t ts ih =>
      show ((cb.record_failure t).record_failures ts)._failure_count = _
      rw [ih, record_failure_count]
      simp [Nat.add_assoc, Nat.add_comm 1]

theorem record_failures_last (ts : List Int) (cb : CircuitBreaker) (t : Int)
    (h : ts.getLast? = some t) :
    (cb.record_failures ts)._last_failure_time = some t := by
  induction ts generalizing cb with
  | nil => simp at h
  | cons a ts ih =>
      show ((cb.record_failure a).record_failures ts)._last_failure_time = some t
      cases ts with
      | nil =>
          simp at h
          subst h
          exact record_failure_last cb a
      | cons b ts' =>
          rw [List.getLast?_cons_cons] at h
          exact ih _ h

theorem record_failures_from_open (ts : List Int) (cb : CircuitBreaker)
    (h : cb._state = CircuitState.open_) :
    (cb.record_failures ts)._state = CircuitState.open_ := by
  induction ts generalizing cb with
  | nil => exact h
  | cons t ts ih =>
      show ((cb.record_failure t).record_failures ts)._state = _
      exact ih _ (record_failure_from_open cb t h)

theorem record_failures_opens (ts : List Int) (cb : CircuitBreaker)
    (hst : cb._state = CircuitState.closed) (hne : ts ≠ [])
    (hth : cb._failure_count + ts.length ≥ cb.failure_threshold) :
    (cb.record_failures ts)._state = CircuitState.open_ := by
  induction ts generalizing cb with
  | nil => exact absurd rfl hne
  | cons t ts ih =>
      show ((cb.record_failure t).record_failures ts)._state = _
      by_cases hfc : cb._failure_count + 1 ≥ cb.failure_threshold
      · apply record_failures_from_open
        rw [record_failure_from_closed cb t hst]
        simp [hfc]
      · cases ts with
        | nil =>
            simp at hth
            exact absurd hth hfc
        | cons b ts' =>
            apply ih
            · rw [record_failure_from_closed cb t hst]
              simp [hfc]
            · simp
            · rw [record_failure_count, (record_failure_config cb t).1]
              simp at hth ⊢
              omega

theorem record_failures_config (ts : List Int) (cb : CircuitBreaker) :
    (cb.record_failures ts).failure_threshold = cb.failure_threshold ∧
    (cb.record_failures ts).reset_timeout_seconds = cb.reset_timeout_seconds ∧
    (cb.record_failures ts).half_open_max_calls = cb.half_open_max_calls ∧
    (cb.record_failures ts).name = cb.name := by
  induction ts generalizing cb with
  | nil => exact ⟨rfl, rfl, rfl, rfl⟩
  | cons t ts ih =>
      have h1 := record_failure_config cb t
      have h2 := ih (cb.record_failure t)
      exact ⟨h2.1.trans h1.1, h2.2.1.trans h1.2.1,
             h2.2.2.1.trans h1.2.2.1, h2.2.2.2.trans h1.2.2.2⟩

theorem allow_request_denied_while_open (cb : CircuitBreaker) (now t : Int)
    (hst : cb._state = CircuitState.open_)
    (hlast : cb._last_failure_time = some t)
    (hnow : now < t + cb.reset_timeout_seconds) :
    (cb.allow_request now).1 = false := by
  have hsar : cb._should_attempt_reset now = false := by
    unfold CircuitBreaker._should_attempt_reset
    rw [hlast]
    simp only [ge_iff_le, decide_eq_false_iff_not, not_le]
    omega
  have hstate : cb.state now = (CircuitState.open_, cb) := by
    unfold CircuitBreaker.state
    rw [if_neg, hst]
    simp [hsar]
  unfold CircuitBreaker.allow_request
  rw [hstate]

/-- C1: for a breaker with failure threshold `N ≥ 1`, starting from the
freshly-constructed Closed state, after `N` consecutive `record_failure`
calls (at arbitrary times `ts`) with no intervening `record_success`, and at
any query time before the reset timeout has elapsed since the last failure,
the state is Open and `allow_request` returns `false`. -/
theorem circuit_opens_after_threshold_consecutive_failures
    (nm : String) (N : Nat) (timeout : Int) (maxCalls : Nat) (ts : List Int)
    (now lastT : Int)
    (hN : 1 ≤ N) (hlen : ts.length = N)
    (hlast : ts.getLast? = some lastT) (hnow : now < lastT + timeout) :
    ((CircuitBreaker.init nm N timeout maxCalls).record_failures ts)._state =
        CircuitState.open_ ∧
    (((CircuitBreaker.init nm N timeout maxCalls).record_failures ts).allow_request
        now).1 = false := by
  have hne : ts ≠ [] := by
    intro h
    rw [h] at hlast
    simp at hlast
  have hst := record_failures_opens ts (CircuitBreaker.init nm N timeout maxCalls)
    rfl hne (by rw [hlen]; exact Nat.le_add_left N 0)
  refine ⟨hst, allow_request_denied_while_open _ now lastT hst ?_ ?_⟩
  · exact record_failures_last ts _ lastT hlast
  · rw [(record_failures_config ts _).2.1]
    exact hnow

theorem circuit_opens_after_threshold_consecutive_failures_witness :
    (((CircuitBreaker.init "todoist" 3 60 1).record_failures [0, 1, 2])._state =
        CircuitState.open_ ∧
    ((((CircuitBreaker.init "todoist" 3 60 1).record_failures [0, 1, 2])).allow_request
        10).1 = false) :=
  circuit_opens_after_threshold_consecutive_failures "todoist" 3 60 1 [0, 1, 2]
    10 2 (by decide) (by decide) (by decide) (by decide)

/-! ## C3: when is the failure count zeroed? -/

/-- One public breaker operation, as in the claim: `allow_request`,
`record_success`, `record_failure` or `reset` (time-reading operations carry
their `datetime.now()` value). -/
inductive BreakerOp where
  | allow (now : Int)
  | success
  | failure (now : Int)
  | reset
deriving DecidableEq, Repr

/-- Apply one operation to a breaker, keeping the resulting state. -/
def BreakerOp.apply (op : BreakerOp) (cb : CircuitBreaker) : CircuitBreaker :=
  match op with
  | BreakerOp.allow now => (cb.allow_request now).2
  | BreakerOp.success => cb.record_success
  | BreakerOp.failure now => cb.record_failure now
  | BreakerOp.reset => cb.reset

theorem allow_request_preserves_count (cb : CircuitBreaker) (now : Int) :
    ((cb.allow_request now).2)._failure_count = cb._failure_count := by
  unfold CircuitBreaker.allow_request CircuitBreaker.state
  by_cases h : (cb._state = CircuitState.open_ ∧ cb._should_attempt_reset now = true)
  · simp only [if_pos h]
    split <;> rfl
  · simp only [if_neg h]
    rcases hs : cb._state <;> simp only [hs] <;> first | rfl | (split <;> rfl)

/-- C3, counterexample to the claim as stated: on a Closed breaker with a
nonzero failure count, `record_success` zeroes the failure count while the
state stays Closed — the operation causes no transition into Closed (the
state does not change at all), yet it resets the count. -/
theorem record_success_in_closed_zeroes_count_without_transition :
    ((CircuitBreaker.mk "s" 5 60 1 CircuitState.closed 3 none 0).record_success
        )._failure_count = 0 ∧
    (CircuitBreaker.mk "s" 5 60 1 CircuitState.closed 3 none 0)._failure_count ≠ 0 ∧
    ((CircuitBreaker.mk "s" 5 60 1 CircuitState.closed 3 none 0).record_success
        )._state = CircuitState.closed ∧
    (CircuitBreaker.mk "s" 5 60 1 CircuitState.closed 3 none 0)._state =
        CircuitState.closed := by
  refine ⟨rfl, by decide, rfl, rfl⟩

/-- C3, amended: an operation (allow_request / record_success /
record_failure / reset) zeroes a nonzero failure count only if the breaker's
resulting state is Closed — i.e. only `record_success` from Closed or
HalfOpen, and `reset`; no operation that results in Open or HalfOpen zeroes
the count. -/
theorem failure_count_zeroed_only_when_resulting_state_closed
    (cb : CircuitBreaker) (op : BreakerOp)
    (h0 : (op.apply cb)._failure_count = 0) (h1 : cb._failure_count ≠ 0) :
    (op.apply cb)._state = CircuitState.closed := by
  cases op with
  | allow now =>
      rw [BreakerOp.apply, allow_request_preserves_count] at h0
      exact absurd h0 h1
  | success =>
      rw [BreakerOp.apply] at h0 ⊢
      unfold CircuitBreaker.record_success at h0 ⊢
      rcases hs : cb._state <;> simp only [hs] at h0 ⊢
      exact absurd h0 h1
  | failure now =>
      rw [BreakerOp.apply, record_failure_count] at h0
      exact absurd h0 (Nat.succ_ne_zero _)
  | reset => rfl

theorem failure_count_zeroed_only_when_resulting_state_closed_witness :
    ((BreakerOp.success.apply
        (CircuitBreaker.mk "s" 5 60 1 CircuitState.closed 1 none 0))._failure_count = 0 ∧
     (BreakerOp.success.apply
        (CircuitBreaker.mk "s" 5 60 1 CircuitState.closed 1 none 0))._state =
          CircuitState.closed) :=
  ⟨by decide, failure_count_zeroed_only_when_resulting_state_closed
      (CircuitBreaker.mk "s" 5 60 1 CircuitState.closed 1 none 0)
      BreakerOp.success (by decide) (by decide)⟩

/-! ## C10: record_failure is unconditional in every state -/

/-- C10: `record_failure` increments the failure count and overwrites the
last-failure timestamp in every state; while Open it keeps the breaker Open,
pushes `get_reset_time` to `now + reset_timeout_seconds` (strictly later than
the previous reset time when the previous failure was earlier), postpones the
Open→HalfOpen transition to query times `≥ now + reset_timeout_seconds`, and
the failure count grows without bound under further failures. -/
theorem record_failure_unconditional_in_every_state
    (cb : CircuitBreaker) (now t : Int) (ts : List Int) :
    (cb.record_failure now)._failure_count = cb._failure_count + 1 ∧
    (cb.record_failure now)._last_failure_time = some now ∧
    (cb._state = CircuitState.open_ →
      (cb.record_failure now)._state = CircuitState.open_ ∧
      (cb.record_failure now).get_reset_time = some (now + cb.reset_timeout_seconds) ∧
      (cb._last_failure_time = some t → t < now →
        cb.get_reset_time = some (t + cb.reset_timeout_seconds) ∧
        t + cb.reset_timeout_seconds < now + cb.reset_timeout_seconds) ∧
      (∀ q : Int, (cb.record_failure now)._should_attempt_reset q = true →
        now + cb.reset_timeout_seconds ≤ q)) ∧
    (cb.record_failures ts)._failure_count = cb._failure_count + ts.length := by
  refine ⟨record_failure_count cb now, record_failure_last cb now, ?_, 
    record_failures_count ts cb⟩
  intro hopen
  have hst := record_failure_from_open cb now hopen
  have hlast := record_failure_last cb now
  have hconf := record_failure_config cb now
  refine ⟨hst, ?_, ?_, ?_⟩
  · unfold CircuitBreaker.get_reset_time
    rw [hst, hlast, hconf.2.1]
  · intro hl hlt
    constructor
    · unfold CircuitBreaker.get_reset_time
      rw [hopen, hl]
    · omega
  · intro q hq
    unfold CircuitBreaker._should_attempt_reset at hq
    rw [hlast] at hq
    rw [hconf.2.1] at hq
    simpa using hq

theorem record_failure_unconditional_in_every_state_witness :
    ((CircuitBreaker.mk "s" 3 60 1 CircuitState.open_ 3 (some 0) 0).record_failure
        5)._failure_count = 4 ∧
    ((CircuitBreaker.mk "s" 3 60 1 CircuitState.open_ 3 (some 0) 0).record_failure
        5).get_reset_time = some 65 :=
  have h := record_failure_unconditional_in_every_state
    (CircuitBreaker.mk "s" 3 60 1 CircuitState.open_ 3 (some 0) 0) 5 0 []
  ⟨h.1, (h.2.2.1 rfl).2.1⟩

/-! ## C2: lazy Open→HalfOpen transition and the probe budget -/

/-- A sequence of `allow_request` calls at the given times, collecting the
returned booleans. -/
def CircuitBreaker.allow_requests (cb : CircuitBreaker) (ts : List Int) :
    List Bool × CircuitBreaker :=
  match ts with
  | [] => ([], cb)
  | t :: ts =>
      let r := cb.allow_request t
      let rest := r.2.allow_requests ts
      (r.1 :: rest.1, rest.2)

theorem state_half_open_fixed (cb : CircuitBreaker) (q : Int)
    (h : cb._state = CircuitState.half_open) :
    cb.state q = (CircuitState.half_open, cb) := by
  unfold CircuitBreaker.state
  rw [if_neg, h]
  simp [h]

theorem allow_request_half_open (cb : CircuitBreaker) (now : Int)
    (h : cb._state = CircuitState.half_open) :
    cb.allow_request now =
      if cb._half_open_calls < cb.half_open_max_calls then
        (true, { cb with _half_open_calls := cb._half_open_calls + 1 })
      else (false, cb) := by
  unfold CircuitBreaker.allow_request
  rw [state_half_open_fixed cb now h]

theorem allow_requests_half_open (ts : List Int) (cb : CircuitBreaker)
    (h : cb._state = CircuitState.half_open) :
    (cb.allow_requests ts).1 =
      List.replicate (min ts.length (cb.half_open_max_calls - cb._half_open_calls))
        true ++
      List.replicate (ts.length - (cb.half_open_max_calls - cb._half_open_calls))
        false := by
  induction ts generalizing cb with
  | nil => simp [CircuitBreaker.allow_requests]
  | cons t ts ih =>
      unfold CircuitBreaker.allow_requests
      rw [allow_request_half_open cb t h]
      by_cases hc : cb._half_open_calls < cb.half_open_max_calls
      · rw [if_pos hc]
        simp only
        have hrec := ih { cb with _half_open_calls := cb._half_open_calls + 1 } h
        rw [hrec]
        have hm : cb.half_open_max_calls - cb._half_open_calls =
            (cb.half_open_max_calls - (cb._half_open_calls + 1)) + 1 := by omega
        rw [hm]
        simp [List.replicate_succ, Nat.succ_sub_succ, Nat.succ_min_succ]
      · rw [if_neg hc]
        simp only
        rw [ih cb h]
        have hm : cb.half_open_max_calls - cb._half_open_calls = 0 := by omega
        rw [hm]
        simp [List.replicate_succ]

/-- C2: for an Open breaker, once `reset_timeout_seconds` have elapsed since
the last recorded failure, the first query of `state` transitions
Open→HalfOpen (resetting the probe counter to 0) exactly once — any further
query of `state` leaves the breaker unchanged — and then exactly
`half_open_max_calls` `allow_request` calls return `true` before
`allow_request` returns `false` for the remainder of the HalfOpen episode. -/
theorem circuit_recovery_half_open_probe_budget
    (cb : CircuitBreaker) (t now : Int) (ts : List Int)
    (hopen : cb._state = CircuitState.open_)
    (hlast : cb._last_failure_time = some t)
    (helapsed : t + cb.reset_timeout_seconds ≤ now) :
    (cb.state now).1 = CircuitState.half_open ∧
    ((cb.state now).2)._state = CircuitState.half_open ∧
    ((cb.state now).2)._half_open_calls = 0 ∧
    (∀ q : Int, ((cb.state now).2).state q =
      (CircuitState.half_open, (cb.state now).2)) ∧
    (((cb.state now).2).allow_requests ts).1 =
      List.replicate (min ts.length cb.half_open_max_calls) true ++
      List.replicate (ts.length - cb.half_open_max_calls) false := by
  have hsar : cb._should_attempt_reset now = true := by
    unfold CircuitBreaker._should_attempt_reset
    rw [hlast]
    simp only [ge_iff_le, decide_eq_true_eq]
    omega
  have hstate : cb.state now =
      (CircuitState.half_open,
        { cb with _state := CircuitState.half_open, _half_open_calls := 0 }) := by
    unfold CircuitBreaker.state
    rw [if_pos ⟨hopen, hsar⟩]
  rw [hstate]
  refine ⟨rfl, rfl, rfl, fun q => state_half_open_fixed _ q rfl, ?_⟩
  rw [allow_requests_half_open ts _ rfl]
  simp

theorem circuit_recovery_half_open_probe_budget_witness :
    ((((CircuitBreaker.mk "s" 3 60 2 CircuitState.open_ 3 (some 0) 5).state 60).2
        ).allow_requests [100, 101, 102]).1 = [true, true, false] :=
  have h := circuit_recovery_half_open_probe_budget
    (CircuitBreaker.mk "s" 3 60 2 CircuitState.open_ 3 (some 0) 5) 0 60
    [100, 101, 102] rfl rfl (by decide)
  by rw [h.2.2.2.2]; decide

/-! ## Retry decorators (src/resilience.py)

The wrapped function is modelled as an oracle `func : Nat → Except ε α`
giving what the `n`-th invocation does (`.ok` a return value, `.error` a
raised exception object); `retryable e` tells whether exception `e` is an
instance of the decorator's `exceptions` tuple.  `time.sleep` and the
float-valued backoff/jitter delays do not influence control flow, so they
are recorded only as trace events where a trace is kept. -/

/-- Final outcome of a `retry`-wrapped call: a returned value, a raised
exception, or the (unreachable for `max_attempts ≥ 1`) trailing
`RuntimeError("Unexpected retry state")`. -/
inductive RetryOutcome (ε α : Type) where
  | ok (v : α)
  | raised (e : ε)
  | runtimeError
deriving DecidableEq, Repr

/-- The `for attempt in range(1, max_attempts + 1)` loop of `retry`,
returning the number of invocations made and the final outcome.
`remaining` is the number of loop iterations left (`max_attempts - attempt + 1`),
so `remaining = 1` exactly when `attempt == max_attempts`. -/
def retryLoop (retryable : ε → Bool) (func : Nat → Except ε α) :
    Nat → Nat → Nat × RetryOutcome ε α
  | _, 0 => (0, RetryOutcome.runtimeError)
  | attempt, r + 1 =>
      match func attempt with
      | Except.ok v => (1, RetryOutcome.ok v)
      | Except.error e =>
          if retryable e = false then
            (1, RetryOutcome.raised e)
          else if r = 0 then
            (1, RetryOutcome.raised e)
          else
            let rest := retryLoop retryable func (attempt + 1) r
            (rest.1 + 1, rest.2)

/-- The `retry` decorator applied to one call of the wrapped function. -/
def retryRun (maxAttempts : Nat) (retryable : ε → Bool)
    (func : Nat → Except ε α) : Nat × RetryOutcome ε α :=
  retryLoop retryable func 1 maxAttempts

theorem retryLoop_all_fail (retryable : ε → Bool) (func : Nat → Except ε α)
    (r : Nat) (attempt : Nat) (hr : 1 ≤ r)
    (hfail : ∀ i, attempt ≤ i → i < attempt + r →
      ∃ e, func i = Except.error e ∧ retryable e = true) :
    (retryLoop retryable func attempt r).1 = r ∧
    ∃ e, func (attempt + r - 1) = Except.error e ∧
      (retryLoop retryable func attempt r).2 = RetryOutcome.raised e := by
  induction r generalizing attempt with
  | zero => omega
  | succ r ih =>
      obtain ⟨e, he, hre⟩ := hfail attempt (le_refl _) (by omega)
      cases r with
      | zero =>
          have hv : retryLoop retryable func attempt 1 = (1, RetryOutcome.raised e) := by
            unfold retryLoop
            rw [he]
            simp [hre]
          rw [hv]
          refine ⟨rfl, e, ?_, rfl⟩
          simpa using he
      | succ r' =>
          have hrec := ih (attempt + 1) (by omega)
            (fun i hi1 hi2 => hfail i (by omega) (by omega))
          have hv : retryLoop retryable func attempt (r' + 1 + 1) =
              ((retryLoop retryable func (attempt + 1) (r' + 1)).1 + 1,
               (retryLoop retryable func (attempt + 1) (r' + 1)).2) := by
            unfold retryLoop
            rw [he]
            simp only [hre, Bool.true_eq_false, if_false, Nat.succ_ne_zero]
            rfl
          rw [hv]
          refine ⟨by rw [hrec.1], ?_⟩
          obtain ⟨e', he', hout⟩ := hrec.2
          refine ⟨e', ?_, hout⟩
          convert he' using 2
          omega

/-- C5: `retry(max_attempts = k)`, `k ≥ 1`, applied to an operation that
fails on every invocation with a retryable exception, invokes the operation
exactly `k` times and then re-raises the `k`-th failure unmodified (the very
exception object the operation raised, hence the same exception type). -/
theorem retry_always_failing_invokes_exactly_k_times
    (k : Nat) (retryable : ε → Bool) (func : Nat → Except ε α)
    (hk : 1 ≤ k)
    (hfail : ∀ i, 1 ≤ i → i ≤ k → ∃ e, func i = Except.error e ∧ retryable e = true) :
    (retryRun k retryable func).1 = k ∧
    ∃ e, func k = Except.error e ∧
      (retryRun k retryable func).2 = RetryOutcome.raised e := by
  have h := retryLoop_all_fail retryable func k 1 hk
    (fun i hi1 hi2 => hfail i hi1 (by omega))
  refine ⟨h.1, ?_⟩
  obtain ⟨e, he, hout⟩ := h.2
  exact ⟨e, by convert he using 2; omega, hout⟩

theorem retry_always_failing_invokes_exactly_k_times_witness :
    (retryRun 3 (fun _ : Nat => true) (fun i => (Except.error i : Except Nat Unit))).1
        = 3 ∧
    ∃ e, (fun i => (Except.error i : Except Nat Unit)) 3 = Except.error e ∧
      (retryRun 3 (fun _ : Nat => true)
        (fun i => (Except.error i : Except Nat Unit))).2 = RetryOutcome.raised e :=
  retry_always_failing_invokes_exactly_k_times 3 (fun _ => true)
    (fun i => Except.error i) (by decide)
    (fun i h1 h2 => ⟨i, rfl, rfl⟩)

/-! ## `retry_with_circuit_breaker` (src/resilience.py)

The wrapper's externally visible behaviour is its sequence of actions — the
`allow_request` checks, the invocations of the wrapped function, the
`record_success` / `record_failure` calls and the `time.sleep` between
retries — together with its outcome and the final breaker state. -/

/-- One observable action of the `retry_with_circuit_breaker` wrapper. -/
inductive RwcbAction where
  | checkAllow
  | call (attempt : Nat)
  | recordSuccess
  | recordFailure
  | sleep (attempt : Nat)
deriving DecidableEq, Repr

/-- Outcome of a `retry_with_circuit_breaker`-wrapped call: a returned
value, a re-raised exception of the wrapped function, a raised
`CircuitBreakerError` (carrying `service_name` and `reset_time`), or the
unreachable trailing `RuntimeError`. -/
inductive RwcbOutcome (ε α : Type) where
  | ok (v : α)
  | raised (e : ε)
  | circuitOpen (service_name : String) (reset_time : Int)
  | runtimeError
deriving DecidableEq, Repr

/-- Result of one wrapped call: action trace, outcome and final breaker. -/
structure RwcbResult (ε α : Type) where
  trace : List RwcbAction
  outcome : RwcbOutcome ε α
  breaker : CircuitBreaker
deriving DecidableEq, Repr

/-- `raise CircuitBreakerError(circuit_breaker.name,
circuit_breaker.get_reset_time() or datetime.now())` — a `None` reset time
(the only falsy case) falls back to the current wall clock. -/
def circuitOpenErr (ε α : Type) (cb : CircuitBreaker) (now : Int) : RwcbOutcome ε α :=
  RwcbOutcome.circuitOpen cb.name (cb.get_reset_time.getD now)

/-- The retry loop of `retry_with_circuit_breaker` (attempt `attempt`, with
`remaining` iterations left, so `remaining = 1` iff `attempt == max_attempts`).
`timeOf n` is the wall clock during iteration `n`; `record_failure` and the
subsequent `allow_request` check happen back-to-back in the source, so they
share it. -/
def rwcbLoop (retryable : ε → Bool) (func : Nat → Except ε α) (timeOf : Nat → Int) :
    Nat → Nat → CircuitBreaker → RwcbResult ε α
  | _, 0, cb => ⟨[], RwcbOutcome.runtimeError, cb⟩
  | attempt, r + 1, cb =>
      match func attempt with
      | Except.ok v =>
          ⟨[RwcbAction.call attempt, RwcbAction.recordSuccess],
           RwcbOutcome.ok v, cb.record_success⟩
      | Except.error e =>
          if retryable e = false then
            -- not an instance of `exceptions`: propagates uncaught
            ⟨[RwcbAction.call attempt], RwcbOutcome.raised e, cb⟩
          else
            let cb1 := cb.record_failure (timeOf attempt)
            if r = 0 then
              ⟨[RwcbAction.call attempt, RwcbAction.recordFailure],
               RwcbOutcome.raised e, cb1⟩
            else
              let ar := cb1.allow_request (timeOf attempt)
              if ar.1 then
                let rest := rwcbLoop retryable func timeOf (attempt + 1) r ar.2
                ⟨RwcbAction.call attempt :: RwcbAction.recordFailure ::
                   RwcbAction.checkAllow :: RwcbAction.sleep attempt :: rest.trace,
                 rest.outcome, rest.breaker⟩
              else
                ⟨[RwcbAction.call attempt, RwcbAction.recordFailure,
                  RwcbAction.checkAllow],
                 circuitOpenErr ε α ar.2 (timeOf attempt), ar.2⟩

/-- One call through `retry_with_circuit_breaker`: the initial
`allow_request` check (at time `timeOf 0`), then the retry loop. -/
def rwcbRun (cb : CircuitBreaker) (maxAttempts : Nat) (retryable : ε → Bool)
    (func : Nat → Except ε α) (timeOf : Nat → Int) : RwcbResult ε α :=
  let ar := cb.allow_request (timeOf 0)
  if ar.1 then
    let rest := rwcbLoop retryable func timeOf 1 maxAttempts ar.2
    ⟨RwcbAction.checkAllow :: rest.trace, rest.outcome, rest.breaker⟩
  else
    ⟨[RwcbAction.checkAllow], circuitOpenErr ε α ar.2 (timeOf 0), ar.2⟩

/-- Whether an action is an invocation of the wrapped function. -/
def isCall : RwcbAction → Bool
  | RwcbAction.call _ => true
  | _ => false

/-- Whether an action is an `allow_request` check. -/
def isCheck : RwcbAction → Bool
  | RwcbAction.checkAllow => true
  | _ => false

/-- The count of attempts (`call` actions) in a trace. -/
def countCalls (l : List RwcbAction) : Nat := l.countP isCall

/-- The count of `allow_request` checks in a trace. -/
def countChecks (l : List RwcbAction) : Nat := l.countP isCheck

theorem state_preserves_name (cb : CircuitBreaker) (now : Int) :
    ((cb.state now).2).name = cb.name := by
  unfold CircuitBreaker.state
  split <;> rfl

theorem allow_request_preserves_name (cb : CircuitBreaker) (now : Int) :
    ((cb.allow_request now).2).name = cb.name := by
  unfold CircuitBreaker.allow_request
  have h := state_preserves_name cb now
  rcases hs : (cb.state now).1 <;> simp only [hs]
  · exact h
  · exact h
  · split
    · exact h
    · exact h

theorem record_success_preserves_name (cb : CircuitBreaker) :
    (cb.record_success).name = cb.name := by
  unfold CircuitBreaker.record_success
  rcases hs : cb._state <;> rfl

theorem rwcbLoop_breaker_name (retryable : ε → Bool) (func : Nat → Except ε α)
    (timeOf : Nat → Int) (r : Nat) (attempt : Nat) (cb : CircuitBreaker) :
    (rwcbLoop retryable func timeOf attempt r cb).breaker.name = cb.name := by
  induction r generalizing attempt cb with
  | zero => rfl
  | succ r ih =>
      unfold rwcbLoop
      rcases hf : func attempt with e | v
      case ok =>
        simp only [hf]
        exact record_success_preserves_name cb
      case error =>
        simp only [hf]
        by_cases hre : retryable e = false
        · rw [if_pos hre]
        · rw [if_neg hre]
          by_cases hr0 : r = 0
          · rw [if_pos hr0]
            exact (record_failure_config cb _).2.2.2
          · rw [if_neg hr0]
            by_cases hal :
                ((cb.record_failure (timeOf attempt)).allow_request (timeOf attempt)).1 = true
            · rw [if_pos hal]
              simp only
              rw [ih]
              rw [allow_request_preserves_name, (record_failure_config cb _).2.2.2]
            · rw [if_neg hal]
              simp only
              rw [allow_request_preserves_name, (record_failure_config cb _).2.2.2]

theorem rwcbLoop_prefix_calls_le_checks (retryable : ε → Bool)
    (func : Nat → Except ε α) (timeOf : Nat → Int) (r : Nat) :
    ∀ (attempt : Nat) (cb : CircuitBreaker) (n : Nat),
    countCalls ((rwcbLoop retryable func timeOf attempt r cb).trace.take n) ≤
      countChecks ((rwcbLoop retryable func timeOf attempt r cb).trace.take n) + 1 := by
  induction r with
  | zero =>
      intro attempt cb n
      simp [rwcbLoop, countCalls, countChecks]
  | succ r ih =>
      intro attempt cb n
      unfold rwcbLoop
      rcases hf : func attempt with e | v
      case ok =>
        simp only [hf]
        rcases n with _ | _ | n <;>
          simp [countCalls, countChecks, isCall, isCheck, List.countP_cons]
      case error =>
        simp only [hf]
        by_cases hre : retryable e = false
        · rw [if_pos hre]
          rcases n with _ | n <;>
            simp [countCalls, countChecks, isCall, isCheck, List.countP_cons]
        · rw [if_neg hre]
          by_cases hr0 : r = 0
          · rw [if_pos hr0]
            rcases n with _ | _ | n <;>
              simp [countCalls, countChecks, isCall, isCheck, List.countP_cons]
          · rw [if_neg hr0]
            by_cases hal : ((cb.record_failure (timeOf attempt)).allow_request
                (timeOf attempt)).1 = true
            · rw [if_pos hal]
              simp only
              rcases n with _ | _ | _ | _ | n <;>
                simp [countCalls, countChecks, isCall, isCheck, List.countP_cons]
              have hrec := ih (attempt + 1)
                ((cb.record_failure (timeOf attempt)).allow_request (timeOf attempt)).2 n
              simp [countCalls, countChecks] at hrec
              omega
            · rw [if_neg hal]
              rcases n with _ | _ | _ | _ | n <;>
                simp [countCalls, countChecks, isCall, isCheck, List.countP_cons]

theorem rwcbLoop_call_followed_by_record (retryable : ε → Bool)
    (func : Nat → Except ε α) (timeOf : Nat → Int)
    (hretry : ∀ i e, func i = Except.error e → retryable e = true) (r : Nat) :
    ∀ (attempt : Nat) (cb : CircuitBreaker) (n k : Nat),
    (rwcbLoop retryable func timeOf attempt r cb).trace[n]? =
        some (RwcbAction.call k) →
    (rwcbLoop retryable func timeOf attempt r cb).trace[n + 1]? =
        some RwcbAction.recordSuccess ∨
    (rwcbLoop retryable func timeOf attempt r cb).trace[n + 1]? =
        some RwcbAction.recordFailure := by
  induction r with
  | zero =>
      intro attempt cb n k h
      simp [rwcbLoop] at h
  | succ r ih =>
      intro attempt cb n k h
      unfold rwcbLoop at h ⊢
      rcases hf : func attempt with e | v
      case ok =>
        simp only [hf] at h ⊢
        rcases n with _ | _ | n <;> simp at h ⊢
      case error =>
        have hre : retryable e = true := hretry attempt e hf
        simp only [hf, hre, Bool.true_eq_false, if_false] at h ⊢
        by_cases hr0 : r = 0
        · rw [if_pos hr0] at h ⊢
          rcases n with _ | _ | n <;> simp at h ⊢
        · rw [if_neg hr0] at h ⊢
          by_cases hal : ((cb.record_failure (timeOf attempt)).allow_request
              (timeOf attempt)).1 = true
          · rw [if_pos hal] at h ⊢
            simp only at h ⊢
            rcases n with _ | _ | _ | _ | n
            · simp
            · simp at h
            · simp at h
            · simp at h
            · simp at h ⊢
              exact ih (attempt + 1) _ n k h
          · rw [if_neg hal] at h ⊢
            rcases n with _ | _ | _ | n <;> simp at h ⊢

theorem rwcbLoop_circuit_open (retryable : ε → Bool)
    (func : Nat → Except ε α) (timeOf : Nat → Int) (r : Nat) :
    ∀ (attempt : Nat) (cb : CircuitBreaker) (s : String) (rt : Int),
    (rwcbLoop retryable func timeOf attempt r cb).outcome =
        RwcbOutcome.circuitOpen s rt →
    s = cb.name ∧
    (rwcbLoop retryable func timeOf attempt r cb).trace.getLast? =
        some RwcbAction.checkAllow ∧
    (∀ rt', (rwcbLoop retryable func timeOf attempt r cb).breaker.get_reset_time =
        some rt' → rt = rt') := by
  induction r with
  | zero =>
      intro attempt cb s rt h
      simp [rwcbLoop] at h
  | succ r ih =>
      intro attempt cb s rt h
      unfold rwcbLoop at h ⊢
      rcases hf : func attempt with e | v
      case ok => simp [hf] at h
      case error =>
        simp only [hf] at h ⊢
        by_cases hre : retryable e = false
        · rw [if_pos hre] at h
          simp at h
        · rw [if_neg hre] at h ⊢
          by_cases hr0 : r = 0
          · rw [if_pos hr0] at h
            simp at h
          · rw [if_neg hr0] at h ⊢
            by_cases hal : ((cb.record_failure (timeOf attempt)).allow_request
                (timeOf attempt)).1 = true
            · rw [if_pos hal] at h ⊢
              simp only at h ⊢
              obtain ⟨hs, hlast, hbr⟩ := ih (attempt + 1) _ s rt h
              refine ⟨?_, ?_, hbr⟩
              · rw [hs, allow_request_preserves_name,
                  (record_failure_config cb _).2.2.2]
              · have hne : (rwcbLoop retryable func timeOf (attempt + 1) r
                    ((cb.record_failure (timeOf attempt)).allow_request
                      (timeOf attempt)).2).trace ≠ [] := by
                  intro hnil
                  rw [hnil] at hlast
                  simp at hlast
                rw [show (RwcbAction.call attempt :: RwcbAction.recordFailure ::
                    RwcbAction.checkAllow :: RwcbAction.sleep attempt ::
                    (rwcbLoop retryable func timeOf (attempt + 1) r
                      ((cb.record_failure (timeOf attempt)).allow_request
                        (timeOf attempt)).2).trace) =
                    [RwcbAction.call attempt, RwcbAction.recordFailure,
                     RwcbAction.checkAllow, RwcbAction.sleep attempt] ++
                    (rwcbLoop retryable func timeOf (attempt + 1) r
                      ((cb.record_failure (timeOf attempt)).allow_request
                        (timeOf attempt)).2).trace from rfl]
                rw [List.getLast?_append_of_ne_nil _ hne]
                exact hlast
            · rw [if_neg hal] at h ⊢
              simp only [circuitOpenErr] at h ⊢
              injection h with h1 h2
              refine ⟨?_, by simp, ?_⟩
              · rw [← h1, allow_request_preserves_name,
                  (record_failure_config cb _).2.2.2]
              · intro rt' hsome
                rw [hsome] at h2
                simpa using h2.symm

/-- C4: for every operation wrapped by `retry_with_circuit_breaker` (whose
raised exceptions are instances of the decorator's `exceptions` tuple):
(1) `allow_request` is checked before each attempt — every prefix of the
action trace has at least as many checks as attempts; (2) each attempt is
immediately followed by `record_success` or `record_failure` on the breaker;
(3) whenever the wrapper raises the circuit-open failure it carries the
breaker's service name and the breaker's reset time, and the raise follows a
failed check directly — no sleep and no further attempt after it, so a
breaker opening mid-loop aborts the remaining attempts; (4) when the circuit
is open at entry the wrapper raises immediately: the trace is the single
check, with no attempt and no sleep at all. -/
theorem rwcb_circuit_breaker_contract
    (cb : CircuitBreaker) (maxAttempts : Nat) (retryable : ε → Bool)
    (func : Nat → Except ε α) (timeOf : Nat → Int)
    (hretry : ∀ i e, func i = Except.error e → retryable e = true) :
    (∀ n, countCalls ((rwcbRun cb maxAttempts retryable func timeOf).trace.take n) ≤
        countChecks ((rwcbRun cb maxAttempts retryable func timeOf).trace.take n)) ∧
    (∀ n k, (rwcbRun cb maxAttempts retryable func timeOf).trace[n]? =
          some (RwcbAction.call k) →
        (rwcbRun cb maxAttempts retryable func timeOf).trace[n + 1]? =
          some RwcbAction.recordSuccess ∨
        (rwcbRun cb maxAttempts retryable func timeOf).trace[n + 1]? =
          some RwcbAction.recordFailure) ∧
    (∀ s rt, (rwcbRun cb maxAttempts retryable func timeOf).outcome =
          RwcbOutcome.circuitOpen s rt →
        s = cb.name ∧
        (rwcbRun cb maxAttempts retryable func timeOf).trace.getLast? =
          some RwcbAction.checkAllow ∧
        (∀ rt', (rwcbRun cb maxAttempts retryable func timeOf).breaker.get_reset_time =
          some rt' → rt = rt')) ∧
    ((cb.allow_request (timeOf 0)).1 = false →
        (rwcbRun cb maxAttempts retryable func timeOf).trace = [RwcbAction.checkAllow] ∧
        (rwcbRun cb maxAttempts retryable func timeOf).outcome =
          circuitOpenErr ε α (cb.allow_request (timeOf 0)).2 (timeOf 0)) := by
  unfold rwcbRun
  by_cases hen : (cb.allow_request (timeOf 0)).1 = true
  · rw [if_pos hen]
    refine ⟨?_, ?_, ?_, ?_⟩
    · intro n
      rcases n with _ | n
      · simp [countCalls, countChecks]
      · simp only [List.take_succ_cons]
        have h := rwcbLoop_prefix_calls_le_checks retryable func timeOf maxAttempts 1
          (cb.allow_request (timeOf 0)).2 n
        simp [countCalls, countChecks, isCall, isCheck, List.countP_cons] at h ⊢
        omega
    · intro n k h
      rcases n with _ | n
      · simp at h
      · simp only [List.getElem?_cons_succ] at h ⊢
        exact rwcbLoop_call_followed_by_record retryable func timeOf hretry
          maxAttempts 1 _ n k h
    · intro s rt h
      simp only at h
      obtain ⟨hs, hlast, hbr⟩ := rwcbLoop_circuit_open retryable func timeOf
        maxAttempts 1 _ s rt h
      refine ⟨hs.trans (allow_request_preserves_name cb _), ?_, hbr⟩
      have hne : (rwcbLoop retryable func timeOf 1 maxAttempts
          (cb.allow_request (timeOf 0)).2).trace ≠ [] := by
        intro hnil
        rw [hnil] at hlast
        simp at hlast
      show (RwcbAction.checkAllow :: (rwcbLoop retryable func timeOf 1 maxAttempts
          (cb.allow_request (timeOf 0)).2).trace).getLast? = some RwcbAction.checkAllow
      rw [show (RwcbAction.checkAllow :: (rwcbLoop retryable func timeOf 1 maxAttempts
          (cb.allow_request (timeOf 0)).2).trace) =
          [RwcbAction.checkAllow] ++ (rwcbLoop retryable func timeOf 1 maxAttempts
          (cb.allow_request (timeOf 0)).2).trace from rfl]
      rw [List.getLast?_append_of_ne_nil _ hne]
      exact hlast
    · intro hfalse
      rw [hen] at hfalse
      exact absurd hfalse (by simp)
  · rw [if_neg hen]
    refine ⟨?_, ?_, ?_, ?_⟩
    · intro n
      rcases n with _ | n <;>
        simp [countCalls, countChecks, isCall, isCheck, List.countP_cons]
    · intro n k h
      rcases n with _ | n <;> simp at h
    · intro s rt h
      simp only [circuitOpenErr] at h
      injection h with h1 h2
      refine ⟨h1.symm.trans (allow_request_preserves_name cb _), by simp, ?_⟩
      intro rt' hsome
      rw [hsome] at h2
      simpa using h2.symm
    · intro hfalse
      exact ⟨rfl, rfl⟩

theorem rwcb_circuit_breaker_contract_witness :
    (rwcbRun (CircuitBreaker.mk "svc" 5 60 1 CircuitState.open_ 5 (some 0) 0) 3
        (fun _ : Nat => true) (fun _ => (Except.error 0 : Except Nat Unit))
        (fun _ => 10)).trace = [RwcbAction.checkAllow] ∧
    (rwcbRun (CircuitBreaker.mk "svc" 5 60 1 CircuitState.open_ 5 (some 0) 0) 3
        (fun _ : Nat => true) (fun _ => (Except.error 0 : Except Nat Unit))
        (fun _ => 10)).outcome =
      circuitOpenErr Nat Unit
        (((CircuitBreaker.mk "svc" 5 60 1 CircuitState.open_ 5 (some 0) 0
          ).allow_request 10).2) 10 :=
  (rwcb_circuit_breaker_contract
    (CircuitBreaker.mk "svc" 5 60 1 CircuitState.open_ 5 (some 0) 0) 3
    (fun _ => true) (fun _ => Except.error 0) (fun _ => 10)
    (fun _ _ _ => rfl)).2.2.2 (by decide)

/-! ## School letter parser (src/email_automation/school/letter_parser.py)

Text is a `List Char`; `datetime.date` is `PyDate` with Python's validity
rules (the `except ValueError` paths in `_extract_dates` are the `none`
results of `mkPyDate`); `date.today()` / `datetime.now().year` are passed
in explicitly.  The four regular expressions of `UK_DATE_PATTERNS` are
realised as position-wise scanners with `re.finditer` semantics (leftmost
match, alternation in written order, greedy `\d{1,2}` with backtracking,
`re.IGNORECASE`). -/

/-- A `datetime.date` value. -/
structure PyDate where
  year : Nat
  month : Nat
  day : Nat
deriving DecidableEq, Repr

/-- Gregorian leap-year rule, as in `datetime`. -/
def isLeapYear (y : Nat) : Bool := (y % 4 = 0 ∧ y % 100 ≠ 0) ∨ y % 400 = 0

/-- Days in a month of a given year (0 for an invalid month number). -/
def daysInMonth (y m : Nat) : Nat :=
  match m with
  | 1 => 31 | 2 => if isLeapYear y then 29 else 28 | 3 => 31 | 4 => 30
  | 5 => 31 | 6 => 30 | 7 => 31 | 8 => 31 | 9 => 30 | 10 => 31
  | 11 => 30 | 12 => 31
  | _ => 0

/-- `datetime.date(y, m, d)`: `some` on valid arguments, `none` where the
constructor raises `ValueError`. -/
def mkPyDate (y m d : Nat) : Option PyDate :=
  if 1 ≤ y ∧ y ≤ 9999 ∧ 1 ≤ m ∧ m ≤ 12 ∧ 1 ≤ d ∧ d ≤ daysInMonth y m then
    some ⟨y, m, d⟩
  else none

/-- Python date comparison `<` (lexicographic on year, month, day). -/
def PyDate.before (a b : PyDate) : Bool :=
  a.year < b.year ∨ (a.year = b.year ∧
    (a.month < b.month ∨ (a.month = b.month ∧ a.day < b.day)))

/-- `date.toordinal()`: day number in the proleptic Gregorian calendar. -/
def PyDate.toordinal (d : PyDate) : Nat :=
  let y := d.year - 1
  365 * y + y / 4 - y / 100 + y / 400 +
    (List.range (d.month - 1)).foldl (fun acc i => acc + daysInMonth d.year (i + 1)) 0 +
    d.day

/-- `(d - today).days` for Python dates. -/
def daysUntil (d today : PyDate) : Int :=
  (d.toordinal : Int) - (today.toordinal : Int)

/-- `min` of a nonempty list of Python dates (as used for `earliest_date`). -/
def pyDateListMin : List PyDate → Option PyDate
  | [] => none
  | d :: ds =>
      some (ds.foldl (fun acc x => if x.before acc then x else acc) d)

/-- Python regex `\s` (ASCII fragment: space, tab, newline, return, vertical
tab, form feed). -/
def isSpacePy (c : Char) : Bool :=
  c = ' ' ∨ c = '\t' ∨ c = '\n' ∨ c = '\r' ∨ c = '\x0b' ∨ c = '\x0c'

/-- Case-insensitive literal match: consumes `pat` from the front of the
input (by `re.IGNORECASE` both sides are compared lower-cased). -/
def matchCI : List Char → List Char → Option (List Char)
  | [], cs => some cs
  | _, [] => none
  | p :: ps, c :: cs => if c.toLower = p.toLower then matchCI ps cs else none

/-- `\s+`: one or more whitespace characters, greedy. -/
def spaces1 : List Char → Option (List Char)
  | [] => none
  | c :: cs =>
      if isSpacePy c then some (cs.dropWhile isSpacePy) else none

/-- `\d{1,2}`, greedy with backtracking: the list of (value, rest)
alternatives in the regex engine's preference order (two digits first). -/
def digits12 : List Char → List (Nat × List Char)
  | [] => []
  | [a] => if a.isDigit then [(a.toNat - '0'.toNat, [])] else []
  | a :: b :: rest =>
      if a.isDigit then
        if b.isDigit then
          [((a.toNat - '0'.toNat) * 10 + (b.toNat - '0'.toNat), rest),
           (a.toNat - '0'.toNat, b :: rest)]
        else [(a.toNat - '0'.toNat, b :: rest)]
      else []

/-- `\d{4}`: exactly four digits. -/
def digits4 (cs : List Char) : Option (Nat × List Char) :=
  match cs with
  | a :: b :: c :: d :: rest =>
      if a.isDigit ∧ b.isDigit ∧ c.isDigit ∧ d.isDigit then
        some (((a.toNat - '0'.toNat) * 10 + (b.toNat - '0'.toNat)) * 100 +
          ((c.toNat - '0'.toNat) * 10 + (d.toNat - '0'.toNat)), rest)
      else none
  | _ => none

/-- `(?:st|nd|rd|th)?`: optional ordinal suffix.  The following regex token
is always `\s+`, which cannot match a letter, so consuming the suffix when
present is exact. -/
def ordinalOpt (cs : List Char) : List Char :=
  match matchCI ['s', 't'] cs with
  | some r => r
  | none =>
      match matchCI ['n', 'd'] cs with
      | some r => r
      | none =>
          match matchCI ['r', 'd'] cs with
          | some r => r
          | none =>
              match matchCI ['t', 'h'] cs with
              | some r => r
              | none => cs

/-- `[/\-]`. -/
def sepSlashDash : List Char → Option (List Char)
  | c :: cs => if c = '/' ∨ c = '-' then some cs else none
  | [] => none

/-- Full month names in the alternation order of `UK_DATE_PATTERNS[0]`,
with their `MONTH_MAP` numbers. -/
def fullMonths : List (List Char × Nat) :=
  [("January".toList, 1), ("February".toList, 2), ("March".toList, 3),
   ("April".toList, 4), ("May".toList, 5), ("June".toList, 6),
   ("July".toList, 7), ("August".toList, 8), ("September".toList, 9),
   ("October".toList, 10), ("November".toList, 11), ("December".toList, 12)]

/-- Abbreviated month names of `UK_DATE_PATTERNS[1]`. -/
def abbrevMonths : List (List Char × Nat) :=
  [("Jan".toList, 1), ("Feb".toList, 2), ("Mar".toList, 3), ("Apr".toList, 4),
   ("May".toList, 5), ("Jun".toList, 6), ("Jul".toList, 7), ("Aug".toList, 8),
   ("Sep".toList, 9), ("Oct".toList, 10), ("Nov".toList, 11), ("Dec".toList, 12)]

/-- Weekday names of `UK_DATE_PATTERNS[3]`. -/
def weekdays : List (List Char) :=
  ["Monday".toList, "Tuesday".toList, "Wednesday".toList, "Thursday".toList,
   "Friday".toList, "Saturday".toList, "Sunday".toList]

/-- Match one name of an alternation (first alternative wins). -/
def matchAlt (alts : List (List Char × Nat)) (cs : List Char) :
    Option (Nat × List Char) :=
  alts.findSome? fun p =>
    (matchCI p.1 cs).map fun rest => (p.2, rest)

/-- Match one of the weekday names. -/
def matchWeekday (cs : List Char) : Option (List Char) :=
  weekdays.findSome? fun w => matchCI w cs

/-- `UK_DATE_PATTERNS[0]` at one position:
`(\d{1,2})(?:st|nd|rd|th)?\s+(FullMonth)\s+(\d{4})`.
Returns ((day, month, year), matched length). -/
def matchP0At (cs : List Char) : Option ((Nat × Nat × Nat) × Nat) :=
  (digits12 cs).findSome? fun dr =>
    let r1 := ordinalOpt dr.2
    (spaces1 r1).bind fun r2 =>
    (matchAlt fullMonths r2).bind fun mr =>
    (spaces1 mr.2).bind fun r3 =>
    (digits4 r3).map fun yr =>
      ((dr.1, mr.1, yr.1), cs.length - yr.2.length)

/-- `UK_DATE_PATTERNS[1]`: abbreviated month names. -/
def matchP1At (cs : List Char) : Option ((Nat × Nat × Nat) × Nat) :=
  (digits12 cs).findSome? fun dr =>
    let r1 := ordinalOpt dr.2
    (spaces1 r1).bind fun r2 =>
    (matchAlt abbrevMonths r2).bind fun mr =>
    (spaces1 mr.2).bind fun r3 =>
    (digits4 r3).map fun yr =>
      ((dr.1, mr.1, yr.1), cs.length - yr.2.length)

/-- `UK_DATE_PATTERNS[2]`: `(\d{1,2})[/\-](\d{1,2})[/\-](\d{4})`. -/
def matchP2At (cs : List Char) : Option ((Nat × Nat × Nat) × Nat) :=
  (digits12 cs).findSome? fun dr =>
    (sepSlashDash dr.2).bind fun r1 =>
    (digits12 r1).findSome? fun mr =>
    (sepSlashDash mr.2).bind fun r2 =>
    (digits4 r2).map fun yr =>
      ((dr.1, mr.1, yr.1), cs.length - yr.2.length)

/-- `UK_DATE_PATTERNS[3]`:
`(?:Weekday)\s+(\d{1,2})(?:st|nd|rd|th)?\s+(FullMonth)` — no year group. -/
def matchP3At (cs : List Char) : Option ((Nat × Nat) × Nat) :=
  (matchWeekday cs).bind fun r0 =>
  (spaces1 r0).bind fun r1 =>
  (digits12 r1).findSome? fun dr =>
    let r2 := ordinalOpt dr.2
    (spaces1 r2).bind fun r3 =>
    (matchAlt fullMonths r3).map fun mr =>
      ((dr.1, mr.1), cs.length - mr.2.length)

/-- `re.finditer` over a position-wise matcher: scan left to right, take the
leftmost match, continue after its end (non-overlapping).  Returns
(groups, start, end) triples.  `skip` is the number of positions still
covered by the previous match (every pattern here consumes ≥ 1 character). -/
def finditerGo (matchAt : List Char → Option (β × Nat)) :
    List Char → Nat → Nat → List (β × Nat × Nat)
  | [], _, _ => []
  | _ :: rest, pos, s + 1 => finditerGo matchAt rest (pos + 1) s
  | c :: rest, pos, 0 =>
      match matchAt (c :: rest) with
      | some br =>
          (br.1, pos, pos + br.2) ::
            finditerGo matchAt rest (pos + 1) (max br.2 1 - 1)
      | none => finditerGo matchAt rest (pos + 1) 0

/-- `re.finditer(pattern, text)`. -/
def finditer (matchAt : List Char → Option (β × Nat)) (cs : List Char) :
    List (β × Nat × Nat) :=
  finditerGo matchAt cs 0 0

/-- Python `str.strip()`. -/
def stripPy (cs : List Char) : List Char :=
  ((cs.dropWhile isSpacePy).reverse.dropWhile isSpacePy).reverse

/-- `_get_context(text, start, end, chars)`. -/
def _get_context (text : List Char) (start stop chars : Nat) : List Char :=
  let ctx_start := start - chars / 2
  let ctx_end := min text.length (stop + chars / 2)
  let context := stripPy ((text.drop ctx_start).take (ctx_end - ctx_start))
  let context := if 0 < ctx_start then '.' :: '.' :: '.' :: context else context
  if ctx_end < text.length then context ++ ['.', '.', '.'] else context

/-- The `ExtractedDate` dataclass. -/
structure ExtractedDate where
  date : PyDate
  original_text : List Char
  context : List Char
deriving DecidableEq, Repr

/-- The `ActionTrigger` dataclass. -/
structure ActionTrigger where
  trigger_type : String
  phrase : List Char
  context : List Char
deriving DecidableEq, Repr

/-- The substring `text[start:stop]`. -/
def sliceOf (text : List Char) (start stop : Nat) : List Char :=
  (text.drop start).take (stop - start)

/-- All candidate `ExtractedDate`s of `_extract_dates`, in the order they are
appended: pattern family 0, then 1, then 2, then 3, each in text order; the
`except (ValueError, KeyError)` entries (invalid dates) are dropped. -/
def rawDates (text : List Char) (today : PyDate) : List ExtractedDate :=
  let mk3 := fun (m : (Nat × Nat × Nat) × Nat × Nat) =>
    (mkPyDate m.1.2.2 m.1.2.1 m.1.1).map fun dt =>
      ExtractedDate.mk dt (sliceOf text m.2.1 m.2.2)
        (_get_context text m.2.1 m.2.2 60)
  let p0 := (finditer matchP0At text).filterMap mk3
  let p1 := (finditer matchP1At text).filterMap mk3
  let p2 := (finditer matchP2At text).filterMap mk3
  let p3 := (finditer matchP3At text).filterMap fun m =>
    ((mkPyDate today.year m.1.2 m.1.1).bind fun d0 =>
      mkPyDate (if d0.before today then today.year + 1 else today.year)
        m.1.2 m.1.1).map fun dt =>
      ExtractedDate.mk dt (sliceOf text m.2.1 m.2.2)
        (_get_context text m.2.1 m.2.2 60)
  p0 ++ p1 ++ p2 ++ p3

/-- The `seen` dict of `_extract_dates`: keep the first entry per calendar
date, in first-occurrence order (Python dicts preserve insertion order). -/
def dedupByDateAux (seen : List PyDate) : List ExtractedDate → List ExtractedDate
  | [] => []
  | d :: ds =>
      if d.date ∈ seen then dedupByDateAux seen ds
      else d :: dedupByDateAux (d.date :: seen) ds

/-- `_extract_dates(text)`, with `datetime.now().year` / `date.today()`
passed in as `today`. -/
def _extract_dates (text : List Char) (today : PyDate) : List ExtractedDate :=
  dedupByDateAux [] (rawDates text today)

theorem dedupByDateAux_mem (l : List ExtractedDate) :
    ∀ (seen : List PyDate) (e : ExtractedDate), e ∈ dedupByDateAux seen l →
    e.date ∉ seen ∧
    l.find? (fun x => decide (x.date = e.date)) = some e := by
  induction l with
  | nil => intro seen e h; simp [dedupByDateAux] at h
  | cons d ds ih =>
      intro seen e h
      unfold dedupByDateAux at h
      by_cases hs : d.date ∈ seen
      · rw [if_pos hs] at h
        obtain ⟨hns, hfind⟩ := ih seen e h
        refine ⟨hns, ?_⟩
        rw [List.find?_cons_of_neg, hfind]
        simp only [decide_eq_true_eq]
        intro hd
        rw [hd] at hs
        exact hns hs
      · rw [if_neg hs] at h
        rcases List.mem_cons.mp h with he | he
        · subst he
          exact ⟨hs, by rw [List.find?_cons_of_pos] ; simp⟩
        · obtain ⟨hns, hfind⟩ := ih (d.date :: seen) e he
          have hne : d.date ≠ e.date := by
            intro hd
            exact hns (hd ▸ List.mem_cons_self d.date seen)
          refine ⟨fun hmem => hns (List.mem_cons_of_mem _ hmem), ?_⟩
          rw [List.find?_cons_of_neg, hfind]
          simpa using hne

theorem dedupByDateAux_dates_nodup (l : List ExtractedDate) :
    ∀ seen : List PyDate,
    ((dedupByDateAux seen l).map (fun d => d.date)).Nodup := by
  induction l with
  | nil => intro seen; simp [dedupByDateAux]
  | cons d ds ih =>
      intro seen
      unfold dedupByDateAux
      by_cases hs : d.date ∈ seen
      · rw [if_pos hs]; exact ih seen
      · rw [if_neg hs]
        simp only [List.map_cons, List.nodup_cons]
        refine ⟨?_, ih (d.date :: seen)⟩
        intro hmem
        obtain ⟨e, he, hde⟩ := List.mem_map.mp hmem
        have := (dedupByDateAux_mem ds (d.date :: seen) e he).1
        exact this (hde ▸ List.mem_cons_self d.date seen)

/-- C7: the extracted-dates list of the letter analysis is deduplicated by
the resulting calendar date — (1) it never contains two entries with the
same date; (2) each surviving entry is exactly the first raw pattern match
(in the extraction order: pattern family by pattern family, each in text
order) producing that date, hence it keeps that first match's context; and
(3) on text carrying the same date in two formats, "15/02/2026" and
"15th February 2026", exactly one `ExtractedDate` remains, for 2026-02-15
(its text and context coming from the first match, the full-month-name one). -/
theorem extracted_dates_deduplicated_by_calendar_date :
    (∀ (text : List Char) (today : PyDate),
      ((_extract_dates text today).map (fun d => d.date)).Nodup) ∧
    (∀ (text : List Char) (today : PyDate) (e : ExtractedDate),
      e ∈ _extract_dates text today →
      (rawDates text today).find? (fun x => decide (x.date = e.date)) = some e) ∧
    (_extract_dates "Please note: 15/02/2026 and 15th February 2026".toList
        ⟨2026, 2, 12⟩ =
      [⟨⟨2026, 2, 15⟩, "15th February 2026".toList,
        "Please note: 15/02/2026 and 15th February 2026".toList⟩]) := by
  refine ⟨?_, ?_, by decide⟩
  · intro text today
    exact dedupByDateAux_dates_nodup (rawDates text today) []
  · intro text today e h
    exact (dedupByDateAux_mem (rawDates text today) [] e h).2

theorem extracted_dates_deduplicated_by_calendar_date_witness :
    (rawDates "Please note: 15/02/2026 and 15th February 2026".toList
        ⟨2026, 2, 12⟩).find?
      (fun x => decide (x.date =
        (ExtractedDate.mk ⟨2026, 2, 15⟩ "15th February 2026".toList
          "Please note: 15/02/2026 and 15th February 2026".toList).date)) =
    some (ExtractedDate.mk ⟨2026, 2, 15⟩ "15th February 2026".toList
      "Please note: 15/02/2026 and 15th February 2026".toList) :=
  extracted_dates_deduplicated_by_calendar_date.2.1
    "Please note: 15/02/2026 and 15th February 2026".toList ⟨2026, 2, 12⟩
    (ExtractedDate.mk ⟨2026, 2, 15⟩ "15th February 2026".toList
      "Please note: 15/02/2026 and 15th February 2026".toList)
    (by decide)

/-- The `LetterAnalysis` dataclass. -/
structure LetterAnalysis where
  dates : List ExtractedDate := []
  action_triggers : List ActionTrigger := []
  suggested_urgency : String := "low"
  has_deadline : Bool := false
  has_payment : Bool := false
  earliest_date : Option PyDate := none
deriving DecidableEq, Repr

/-- `_determine_urgency(analysis)`, with `date.today()` passed in as
`today`.  The source computes `days_until` in two separate
`if analysis.earliest_date:` blocks; both compute the identical value, so
they are merged into one binding here. -/
def _determine_urgency (analysis : LetterAnalysis) (today : PyDate) : String :=
  match analysis.earliest_date with
  | some ed =>
      let days_until := daysUntil ed today
      if days_until ≤ 3 ∧
          (analysis.has_deadline = true ∨ analysis.has_payment = true) then "high"
      else if days_until ≤ 7 ∧ analysis.has_payment = true then "high"
      else if days_until ≤ 7 then "medium"
      else if analysis.has_deadline = true ∨ analysis.has_payment = true then "medium"
      else if analysis.action_triggers ≠ [] then "low"
      else "info"
  | none =>
      if analysis.has_deadline = true ∨ analysis.has_payment = true then "medium"
      else if analysis.action_triggers ≠ [] then "low"
      else "info"

/-- The urgency policy in the words of the specification: high if an
earliest date exists, is at most 3 days away and (has_deadline or
has_payment); else high if an earliest date exists, is at most 7 days away
and has_payment; else medium if an earliest date exists and is at most 7
days away; else medium if has_deadline or has_payment; else low if any
trigger exists; else info. -/
def urgencyPolicySpec (analysis : LetterAnalysis) (today : PyDate) : String :=
  let within : Int → Bool := fun k =>
    match analysis.earliest_date with
    | some ed => daysUntil ed today ≤ k
    | none => false
  if within 3 = true ∧
      (analysis.has_deadline = true ∨ analysis.has_payment = true) then "high"
  else if within 7 = true ∧ analysis.has_payment = true then "high"
  else if within 7 = true then "medium"
  else if analysis.has_deadline = true ∨ analysis.has_payment = true then "medium"
  else if analysis.action_triggers ≠ [] then "low"
  else "info"

/-- C6: the suggested urgency is computed exactly by the specification's
precedence over the derived fields (for every analysis value and every
"today").  In particular, a deadline trigger with its date exactly 3 days
out plus a payment trigger yields "high", and the same deadline 10 days out
with no payment trigger yields "medium". -/
theorem urgency_follows_spec_precedence :
    (∀ (analysis : LetterAnalysis) (today : PyDate),
      _determine_urgency analysis today = urgencyPolicySpec analysis today) ∧
    (_determine_urgency
      { action_triggers :=
          [⟨"deadline", "please return by".toList, []⟩,
           ⟨"payment", "please pay".toList, []⟩],
        has_deadline := true, has_payment := true,
        earliest_date := some ⟨2026, 2, 15⟩ } ⟨2026, 2, 12⟩ = "high") ∧
    (_determine_urgency
      { action_triggers := [⟨"deadline", "please return by".toList, []⟩],
        has_deadline := true, has_payment := false,
        earliest_date := some ⟨2026, 2, 22⟩ } ⟨2026, 2, 12⟩ = "medium") := by
  refine ⟨?_, by decide, by decide⟩
  intro analysis today
  unfold _determine_urgency urgencyPolicySpec
  rcases h : analysis.earliest_date with _ | ed
  · simp
  · simp only [decide_eq_true_eq]

/-! ## Job registry (src/email_automation/scheduling/jobs.py)

A job closure is modelled by what its one invocation does: `Except.ok` a
result dict or `Except.error` a raised exception (its message).  The
database callbacks are likewise `Except`-valued; their exceptions are
swallowed by `run_job`.  Wall-clock duration is passed in as `dur`. -/

/-- The result dict of a job closure: the values at the keys `run_job`
inspects ("success", "error", "duration_seconds"), plus the remaining
payload entries. -/
structure JobDict where
  success : Option Bool := none
  error : Option String := none
  duration_seconds : Option Int := none
  extra : List (String × String) := []
deriving DecidableEq, Repr

/-- The `JobDefinition` dataclass. -/
structure JobDefinition where
  job_id : String
  name : String
  description : String
  func : Except String JobDict
  default_enabled : Bool := true
deriving Repr

/-- The `JobRegistry`: the job map and the optional database callbacks
(`(job_id, trigger_type) → run_id` and
`(run_id, status, result, error) → success`). -/
structure JobRegistry where
  _jobs : List (String × JobDefinition) := []
  _db_start_callback : Option (String → String → Except String (Option Int)) := none
  _db_complete_callback :
    Option (Int → String → JobDict → Option String → Except String Bool) := none

/-- `JobRegistry.run_job`.  Returns the result dict together with the
`complete_run` invocation made (if any): Python fires it only when `run_id`
is truthy (`0` and `None` are falsy) and a complete-callback is set.  The
function is total: a closure exception becomes the structured failure
result, never a raised exception. -/
def JobRegistry.run_job (reg : JobRegistry) (job_id : String)
    (trigger_type : String) (dur : Int) :
    JobDict × Option (Int × String × JobDict × Option String) :=
  match reg._jobs.find? fun p => p.1 = job_id with
  | none => ({ success := some false, error := some ("Unknown job: " ++ job_id) }, none)
  | some p =>
      let job := p.2
      let run_id : Option Int :=
        match reg._db_start_callback with
        | none => none
        | some cb =>
            match cb job_id trigger_type with
            | Except.ok r => r
            | Except.error _ => none
      let rse : JobDict × String × Option String :=
        match job.func with
        | Except.ok result =>
            let status := if result.success.getD true then "success" else "failed"
            ({ result with duration_seconds := some dur }, status, result.error)
        | Except.error e =>
            ({ success := some false, error := some e }, "failed", some e)
      let completion :=
        match run_id, reg._db_complete_callback with
        | some rid, some _ =>
            if rid ≠ 0 then some (rid, rse.2.1, rse.1, rse.2.2) else none
        | _, _ => none
      (rse.1, completion)

/-- C8: for every registered job whose closure raises an exception,
`run_job` returns the structured failure dict `success = false` with the
exception's message as `error` (no duration, no payload), for any trigger
type and any registry callbacks; being a total function of the closure's
outcome, `run_job` never lets the exception propagate. -/
theorem run_job_catches_closure_exception
    (reg : JobRegistry) (job_id trigger_type : String) (dur : Int)
    (pr : String × JobDefinition) (e : String)
    (hfound : (reg._jobs.find? fun p => p.1 = job_id) = some pr)
    (hraise : pr.2.func = Except.error e) :
    (reg.run_job job_id trigger_type dur).1 =
      { success := some false, error := some e } := by
  unfold JobRegistry.run_job
  rw [hfound]
  simp [hraise]

theorem run_job_catches_closure_exception_witness :
    ((JobRegistry.mk
        [("digest", JobDefinition.mk "digest" "Digest" "daily digest"
          (Except.error "boom") true)] none none).run_job "digest" "manual" 2).1 =
      { success := some false, error := some "boom" } :=
  run_job_catches_closure_exception
    (JobRegistry.mk
      [("digest", JobDefinition.mk "digest" "Digest" "daily digest"
        (Except.error "boom") true)] none none)
    "digest" "manual" 2
    ("digest", JobDefinition.mk "digest" "Digest" "daily digest"
      (Except.error "boom") true)
    "boom" rfl rfl

/-! ## Scheduler (src/email_automation/scheduling/scheduler.py)

The `BackgroundScheduler` is external; what the core controls is which jobs
are handed to `add_job` and whether `start()` succeeds.  `scheduled` is the
list of job ids passed to `add_job` in configuration order. -/

/-- Python `int(str)` (ASCII fragment): strip whitespace, optional sign,
one or more digits; `none` where `int()` raises `ValueError`. -/
def pyIntParse (s : List Char) : Option Int :=
  let digitsToNat : List Char → Option Nat := fun ds =>
    if ds ≠ [] ∧ ds.all Char.isDigit then
      some (ds.foldl (fun acc c => acc * 10 + (c.toNat - '0'.toNat)) 0)
    else none
  match stripPy s with
  | '+' :: ds => (digitsToNat ds).map Int.ofNat
  | '-' :: ds => (digitsToNat ds).map fun n => -(n : Int)
  | ds => (digitsToNat ds).map Int.ofNat

/-- Python `str.split()` with no argument: split on whitespace runs,
dropping empty fields. -/
def splitWSAux : List Char → List Char → List (List Char)
  | [], acc => if acc = [] then [] else [acc.reverse]
  | c :: cs, acc =>
      if isSpacePy c then
        if acc = [] then splitWSAux cs [] else acc.reverse :: splitWSAux cs []
      else splitWSAux cs (c :: acc)

/-- `"0 7,18 * * 1-5".split()`. -/
def splitWS (s : List Char) : List (List Char) := splitWSAux s []

/-- Python `str.split(":")`: keeps empty fields, always nonempty. -/
def splitColonAux : List Char → List Char → List (List Char)
  | [], acc => [acc.reverse]
  | c :: cs, acc =>
      if c = ':' then acc.reverse :: splitColonAux cs []
      else splitColonAux cs (c :: acc)

/-- `"20:00".split(":")`. -/
def splitColon (s : List Char) : List (List Char) := splitColonAux s []

/-- One job's configuration entry: the keys `_create_trigger` inspects,
plus `enabled` (default true). -/
structure JobConfig where
  enabled : Bool := true
  cron : Option (List Char) := none
  interval_hours : Option Int := none
  interval_minutes : Option Int := none
  time : Option (List Char) := none
deriving DecidableEq, Repr

/-- An APScheduler trigger as built by `_create_trigger`:
`CronTrigger` from 5 cron fields, `IntervalTrigger(hours=...)`,
`IntervalTrigger(minutes=...)`, or `CronTrigger(hour=..., minute=...)`. -/
inductive Trigger where
  | cron5 (minute hour day month day_of_week : List Char)
  | intervalHours (hours : Int)
  | intervalMinutes (minutes : Int)
  | dailyTime (hour minute : Int)
deriving DecidableEq, Repr

/-- `EmailScheduler._create_trigger`: `Except.error` is an uncaught Python
exception (the `int()` `ValueError` on a malformed "time" value),
`Except.ok none` the `return None` paths (bad cron length, no known key). -/
def _create_trigger (jc : JobConfig) : Except String (Option Trigger) :=
  match jc.cron with
  | some c =>
      let parts := splitWS c
      if h5 : parts.length = 5 then
        Except.ok (some (Trigger.cron5 (parts.get ⟨0, by omega⟩)
          (parts.get ⟨1, by omega⟩) (parts.get ⟨2, by omega⟩)
          (parts.get ⟨3, by omega⟩) (parts.get ⟨4, by omega⟩)))
      else Except.ok none
  | none =>
  match jc.interval_hours with
  | some h => Except.ok (some (Trigger.intervalHours h))
  | none =>
  match jc.interval_minutes with
  | some m => Except.ok (some (Trigger.intervalMinutes m))
  | none =>
  match jc.time with
  | some t =>
      let parts := splitColon t
      match pyIntParse (parts.headD []) with
      | none => Except.error "ValueError: invalid literal for int()"
      | some hr =>
          if hlen : 1 < parts.length then
            match pyIntParse (parts.get ⟨1, hlen⟩) with
            | none => Except.error "ValueError: invalid literal for int()"
            | some mi => Except.ok (some (Trigger.dailyTime hr mi))
          else Except.ok (some (Trigger.dailyTime hr 0))
  | none => Except.ok none

/-- The `EmailScheduler` state: its configuration, the set of job ids with
a registered handler, whether APScheduler is importable, and the mutable
`_running` / `add_job` bookkeeping. -/
structure EmailScheduler where
  config_enabled : Bool
  jobs_config : List (String × JobConfig)
  registered : List String
  apscheduler_available : Bool
  enabled : Bool
  _running : Bool := false
  scheduled : List String := []
deriving DecidableEq, Repr

/-- The `EmailScheduler.__init__` constructor:
`enabled = config.get("enabled", False) and APSCHEDULER_AVAILABLE`. -/
def EmailScheduler.init (config_enabled : Bool)
    (jobs_config : List (String × JobConfig)) (registered : List String)
    (available : Bool) : EmailScheduler :=
  ⟨config_enabled, jobs_config, registered, available,
   config_enabled && available, false, []⟩

/-- `EmailScheduler._configure_jobs`: the ids handed to `add_job`, in
order, together with the uncaught exception (if any) that aborted the
loop — jobs after the raising one are not configured. -/
def _configure_jobs : List (String × JobConfig) → List String →
    List String × Option String
  | [], _ => ([], none)
  | (jid, jc) :: rest, registered =>
      if jc.enabled = false then _configure_jobs rest registered
      else if registered.contains jid = false then _configure_jobs rest registered
      else
        match _create_trigger jc with
        | Except.error e => ([], some e)
        | Except.ok none => _configure_jobs rest registered
        | Except.ok (some _) =>
            let r := _configure_jobs rest registered
            (jid :: r.1, r.2)

/-- `EmailScheduler.start`: disabled → `false`; already running → `true`;
otherwise configure the jobs inside a `try` — an exception is caught and
logged, `start` returns `false` and the scheduler is left not running (jobs
added before the exception had been handed to the scheduler object, which
is never started). -/
def EmailScheduler.start (s : EmailScheduler) : Bool × EmailScheduler :=
  if s.enabled = false then (false, s)
  else if s._running then (true, s)
  else if s.apscheduler_available = false then (false, s)
  else
    let r := _configure_jobs s.jobs_config s.registered
    match r.2 with
    | some _ => (false, { s with scheduled := r.1 })
    | none => (true, { s with scheduled := r.1, _running := true })

/-- Whether `_configure_jobs` hands a job entry to `add_job`: enabled, a
handler registered, and a parsed (non-`None`) trigger. -/
def schedulable (registered : List String) (p : String × JobConfig) : Bool :=
  p.2.enabled && registered.contains p.1 &&
    (match _create_trigger p.2 with
     | Except.ok (some _) => true
     | _ => false)

/-- C9, counterexample to the claim as stated: with three jobs — a valid
cron job "a", a job "b" whose daily "time" value `"8pm"` is malformed, and a
valid interval job "c" — `start()` does not skip only the misconfigured job:
the `int()` `ValueError` aborts configuration, job "c" is never scheduled,
and `start()` returns `false` with the scheduler not running. -/
theorem scheduler_malformed_time_aborts_start :
    ((EmailScheduler.init true
      [("a", { cron := some "0 7 * * 1".toList }),
       ("b", { time := some "8pm".toList }),
       ("c", { interval_hours := some 1 })]
      ["a", "b", "c"] true).start).1 = false ∧
    ((EmailScheduler.init true
      [("a", { cron := some "0 7 * * 1".toList }),
       ("b", { time := some "8pm".toList }),
       ("c", { interval_hours := some 1 })]
      ["a", "b", "c"] true).start).2.scheduled = ["a"] ∧
    ((EmailScheduler.init true
      [("a", { cron := some "0 7 * * 1".toList }),
       ("b", { time := some "8pm".toList }),
       ("c", { interval_hours := some 1 })]
      ["a", "b", "c"] true).start).2._running = false := by
  refine ⟨by decide, by decide, by decide⟩

theorem configure_jobs_all_ok (cfg : List (String × JobConfig))
    (registered : List String)
    (hok : ∀ p ∈ cfg, (_create_trigger p.2).isOk = true) :
    _configure_jobs cfg registered =
      ((cfg.filter (schedulable registered)).map (fun p => p.1), none) := by
  induction cfg with
  | nil => rfl
  | cons p rest ih =>
      obtain ⟨jid, jc⟩ := p
      have hokp := hok (jid, jc) (List.mem_cons_self _ _)
      have hrest := ih fun q hq => hok q (List.mem_cons_of_mem _ hq)
      unfold _configure_jobs
      by_cases hen : jc.enabled = false
      · rw [if_pos hen, hrest]
        have : schedulable registered (jid, jc) = false := by
          unfold schedulable
          simp [hen]
        simp [List.filter_cons, this]
      · rw [if_neg hen]
        by_cases hreg : registered.contains jid = false
        · rw [if_pos hreg]
          rw [hrest]
          have hsched : schedulable registered (jid, jc) = false := by
            unfold schedulable
            simp only [hreg, Bool.and_false, Bool.false_and]
          simp [List.filter_cons, hsched]
        · rw [if_neg hreg]
          rcases hct : _create_trigger jc with e | topt
          · rw [hct] at hokp
            simp [Except.isOk, Except.toBool] at hokp
          · rcases topt with _ | t
            · have hsched : schedulable registered (jid, jc) = false := by
                unfold schedulable
                rw [hct]
                simp
              simp [hrest, List.filter_cons, hsched]
            · have hsched : schedulable registered (jid, jc) = true := by
                unfold schedulable
                rw [hct]
                simp at hen hreg
                simp [hen, hreg]
              simp [hrest, List.filter_cons, hsched]

/-- C9, amended: a job whose cron expression does not split into exactly 5
whitespace-separated fields is skipped with a logged error
(`_create_trigger` returns `None` without raising), and as long as no
job's trigger parsing raises — in particular when misconfigurations are
only of the bad-cron kind — `start()` on an enabled scheduler succeeds,
the scheduler runs, and exactly the enabled, registered jobs with a parsed
trigger are scheduled, in configuration order.  (A malformed daily "time"
value instead raises `ValueError` inside `start`'s `try`: `start` catches
it, returns `false`, and the jobs after it are not scheduled — see the
counterexample.) -/
theorem scheduler_skips_bad_cron_and_schedules_rest
    (cfg : List (String × JobConfig)) (registered : List String)
    (hok : ∀ p ∈ cfg, (_create_trigger p.2).isOk = true) :
    (∀ (jc : JobConfig) (c : List Char), jc.cron = some c →
      (splitWS c).length ≠ 5 → _create_trigger jc = Except.ok none) ∧
    ((EmailScheduler.init true cfg registered true).start).1 = true ∧
    ((EmailScheduler.init true cfg registered true).start).2._running = true ∧
    ((EmailScheduler.init true cfg registered true).start).2.scheduled =
      (cfg.filter (schedulable registered)).map (fun p => p.1) := by
  refine ⟨?_, ?_⟩
  · intro jc c hc hlen
    unfold _create_trigger
    rw [hc]
    simp [hlen]
  · have hcfg := configure_jobs_all_ok cfg registered hok
    simp [EmailScheduler.start, EmailScheduler.init, hcfg]

theorem scheduler_skips_bad_cron_and_schedules_rest_witness :
    ((EmailScheduler.init true
      [("a", { cron := some "0 7 * * 1-5".toList }),
       ("bad", { cron := some "0 7 *".toList }),
       ("c", { interval_minutes := some 30 })]
      ["a", "bad", "c"] true).start).1 = true ∧
    ((EmailScheduler.init true
      [("a", { cron := some "0 7 * * 1-5".toList }),
       ("bad", { cron := some "0 7 *".toList }),
       ("c", { interval_minutes := some 30 })]
      ["a", "bad", "c"] true).start).2.scheduled = ["a", "c"] :=
  have h := scheduler_skips_bad_cron_and_schedules_rest
    [("a", { cron := some "0 7 * * 1-5".toList }),
     ("bad", { cron := some "0 7 *".toList }),
     ("c", { interval_minutes := some 30 })]
    ["a", "bad", "c"] (by decide)
  ⟨h.2.1, h.2.2.2.trans (by decide)⟩
